import Mathlib

/-!
Shallow embedding of the collaborative-canvas server core
(src/server/drawing-state.js, src/server/rooms.js, and the main server file
with the WebSocket message handlers), together with theorems settling the
frozen claims about the natural-language specification.

Modelling conventions:
* JavaScript values that the verified code paths touch are modelled by
  `JsValue` (undefined, null, booleans, numbers, strings).  Numbers are
  modelled as `Int`: no claim exercises fractional or NaN behaviour.
* A JavaScript object is modelled as its ordered field-assignment list
  (`JsObject`).  Property reads take the LAST assignment of a key, which is
  exactly the semantics of object literals with duplicate keys and of spread
  followed by overriding assignments; the `in` operator is key membership.
* `Date.now()` is passed in explicitly as a `now : Int` argument.
* `uuidv4()` is modelled by a counter kept in the state; it is only consulted
  when the client-supplied operationId is falsy, mirroring the short-circuit
  in `operation.operationId || uuidv4()`.
-/

inductive JsValue where
  | undef : JsValue
  | null : JsValue
  | bool : Bool → JsValue
  | num : Int → JsValue
  | str : String → JsValue
deriving DecidableEq, Repr

/-- JavaScript truthiness for the values we model. -/
def truthy : JsValue → Bool
  | JsValue.undef => false
  | JsValue.null => false
  | JsValue.bool b => b
  | JsValue.num n => n != 0
  | JsValue.str s => s != ""

/-- JavaScript strict equality (===) on the values we model. -/
def jsEq : JsValue → JsValue → Bool
  | JsValue.undef, JsValue.undef => true
  | JsValue.null, JsValue.null => true
  | JsValue.bool a, JsValue.bool b => a == b
  | JsValue.num a, JsValue.num b => a == b
  | JsValue.str a, JsValue.str b => a == b
  | _, _ => false

/-- A JavaScript object, as the ordered list of its field assignments.
Reads resolve to the last assignment of the key, so a literal with a
duplicate key, or a spread followed by further fields, is modelled by
simple list concatenation. -/
structure JsObject where
  fields : List (String × JsValue)
deriving DecidableEq, Repr

/-- Property read: value of the last assignment of key `k`, undefined when
the key was never assigned (JavaScript missing-property semantics). -/
def JsObject.get (o : JsObject) (k : String) : JsValue :=
  o.fields.foldl (fun acc kv => if kv.1 == k then kv.2 else acc) JsValue.undef

/-- The JavaScript `in` operator: key membership. -/
def JsObject.hasField (o : JsObject) (k : String) : Bool :=
  o.fields.any (fun kv => kv.1 == k)

/- ===================== DrawingState (src/server/drawing-state.js) ======= -/

/-- Embedding of the DrawingState class fields. -/
structure DrawingState where
  drawingHistory : List JsObject
  operationHistory : List JsObject
  operationStack : List JsObject
  redoStack : List JsObject
  maxHistorySize : Nat
  createdAt : Int
  uuidCounter : Nat
deriving DecidableEq, Repr

/-- Constructor of DrawingState. -/
def DrawingState.initial (now : Int) : DrawingState :=
  { drawingHistory := []
    operationHistory := []
    operationStack := []
    redoStack := []
    maxHistorySize := 500
    createdAt := now
    uuidCounter := 0 }

def requiredBaseFields : List String := ["type", "userId", "timestamp"]

def validTypes : List String := ["DRAW", "ERASE", "CLEAR_CANVAS"]

def requiredDrawFields : List String := ["x0", "y0", "x1", "y1", "color", "size"]

def requiredEraseFields : List String := ["x0", "y0", "x1", "y1", "size"]

/-- Embedding of DrawingState.validateOperation (drawing-state.js lines
228-270): base fields present, type recognised, per-type coordinate and
appearance fields present. -/
def validateOperation (operation : JsObject) : Bool :=
  if !(requiredBaseFields.all (fun f => operation.hasField f)) then
    false
  else if !(validTypes.any (fun t => jsEq (operation.get "type") (JsValue.str t))) then
    false
  else if jsEq (operation.get "type") (JsValue.str "DRAW")
      && !(requiredDrawFields.all (fun f => operation.hasField f)) then
    false
  else if jsEq (operation.get "type") (JsValue.str "ERASE")
      && !(requiredEraseFields.all (fun f => operation.hasField f)) then
    false
  else
    true

/-- The enriched operation built in addOperation when the client-supplied
operationId is truthy: spread of the operation plus id and addedAt. -/
def enrichOp (operation : JsObject) (now : Int) : JsObject :=
  ⟨operation.fields ++ [("id", operation.get "operationId"), ("addedAt", JsValue.num now)]⟩

/-- Embedding of DrawingState.addOperation (drawing-state.js lines 52-83).
Validates, enriches with id (client operationId when truthy, else a minted
uuid) and addedAt, pushes onto drawingHistory, evicts the oldest entry past
maxHistorySize, pushes the raw operation on operationStack, and clears the
redo stack.  Returns the boolean result of the source together with the
updated state. -/
def addOperation (s : DrawingState) (operation : JsObject) (now : Int) :
    Bool × DrawingState :=
  if !(validateOperation operation) then
    (false, s)
  else
    let given := operation.get "operationId"
    let idAndCounter :=
      if truthy given then (given, s.uuidCounter)
      else (JsValue.str (String.append "uuid-" (Nat.repr s.uuidCounter)), s.uuidCounter + 1)
    let enrichedOp : JsObject :=
      ⟨operation.fields ++ [("id", idAndCounter.1), ("addedAt", JsValue.num now)]⟩
    let pushed := s.drawingHistory ++ [enrichedOp]
    let capped := if s.maxHistorySize < pushed.length then pushed.drop 1 else pushed
    (true,
      { s with
        drawingHistory := capped
        operationStack := s.operationStack ++ [operation]
        redoStack := []
        uuidCounter := idAndCounter.2 })

/-- Removal of the first element satisfying `p`, returning it together with
the remaining list.  This is the findIndex-then-splice(index, 1) pair used by
recordUndo. -/
def removeFirst (p : α → Bool) : List α → Option (α × List α)
  | [] => none
  | x :: xs =>
    if p x then some (x, xs)
    else (removeFirst p xs).map (fun r => (r.1, x :: r.2))

/-- The UNDO audit-trail entry pushed by recordUndo. -/
def undoAudit (undoOp : JsObject) (now : Int) : JsObject :=
  ⟨[("type", JsValue.str "UNDO")] ++ undoOp.fields
    ++ [("removedOperationId", undoOp.get "operationId"), ("timestamp", JsValue.num now)]⟩

/-- Embedding of DrawingState.recordUndo (drawing-state.js lines 97-124).
Finds the operation whose id strictly equals the requested operationId,
fails without any state change when absent, otherwise splices it out of
drawingHistory, pushes it on redoStack and appends an audit entry. -/
def recordUndo (s : DrawingState) (undoOp : JsObject) (now : Int) :
    Bool × DrawingState :=
  match removeFirst
      (fun op => jsEq (op.get "id") (undoOp.get "operationId"))
      s.drawingHistory with
  | none => (false, s)
  | some (removedOperation, rest) =>
    (true,
      { s with
        drawingHistory := rest
        redoStack := s.redoStack ++ [removedOperation]
        operationHistory := s.operationHistory ++ [undoAudit undoOp now] })

/-- The REDO audit-trail entry pushed by recordRedo. -/
def redoAudit (redoOp : JsObject) (operation : JsObject) (now : Int) : JsObject :=
  ⟨[("type", JsValue.str "REDO")] ++ redoOp.fields
    ++ [("readdedOperationId", operation.get "id"), ("timestamp", JsValue.num now)]⟩

/-- Embedding of DrawingState.recordRedo (drawing-state.js lines 134-156).
Fails without state change when the redo stack is empty, otherwise pops its
last element, re-appends it to the END of drawingHistory, and appends an
audit entry. -/
def recordRedo (s : DrawingState) (redoOp : JsObject) (now : Int) :
    Bool × DrawingState :=
  match s.redoStack.getLast? with
  | none => (false, s)
  | some operation =>
    (true,
      { s with
        redoStack := s.redoStack.dropLast
        drawingHistory := s.drawingHistory ++ [operation]
        operationHistory := s.operationHistory ++ [redoAudit redoOp operation now] })

/-- Embedding of DrawingState.getHistory: a snapshot of drawingHistory. -/
def DrawingState.getHistory (s : DrawingState) : List JsObject :=
  s.drawingHistory

/-- Embedding of DrawingState.getOperationHistory. -/
def DrawingState.getOperationHistory (s : DrawingState) : List JsObject :=
  s.operationHistory

/-- Embedding of DrawingState.clear (drawing-state.js lines 213-218). -/
def DrawingState.clear (s : DrawingState) : DrawingState :=
  { s with
    drawingHistory := []
    operationHistory := []
    operationStack := []
    redoStack := [] }

/- ===================== Rooms (src/server/rooms.js) ====================== -/

/-- Color palette for user identification (rooms.js lines 6-10). -/
def USER_COLORS : List String :=
  ["#FF6B6B", "#4ECDC4", "#45B7D1", "#FFA07A",
   "#98D8C8", "#F7DC6F", "#BB8FCE", "#85C1E2",
   "#F8B88B", "#A8D8EA", "#AA96DA", "#FCBAD3"]

/-- A WebSocket connection object: its identity and readyState
(1 = OPEN). -/
structure Conn where
  id : Nat
  readyState : Nat
deriving DecidableEq, Repr

/-- The client info object addClient is meant to build and register. -/
structure ClientInfo where
  userId : String
  username : String
  color : String
  joinedAt : Int
  lastActivityAt : Int
  isActive : Bool
deriving DecidableEq, Repr

/-- The per-user record pushed by getActiveUsers. -/
structure ActiveUser where
  userId : String
  username : String
  color : String
  joinedAt : Int
deriving DecidableEq, Repr

/-- A runtime error thrown by the JavaScript engine. -/
inductive JsError where
  | referenceError (name : String)
deriving DecidableEq, Repr

/-- Embedding of the DrawingRoom class fields. -/
structure DrawingRoom where
  id : String
  clients : List (Conn × ClientInfo)
  drawingState : DrawingState
  userColorIndex : Nat
  createdAt : Int
  lastActivityAt : Int
deriving DecidableEq, Repr

/-- Constructor of DrawingRoom (rooms.js lines 25-48). -/
def DrawingRoom.create (roomId : String) (now : Int) : DrawingRoom :=
  { id := roomId
    clients := []
    drawingState := DrawingState.initial now
    userColorIndex := 0
    createdAt := now
    lastActivityAt := now }

/-- Embedding of DrawingRoom.addClient (rooms.js lines 60-84).  Line 62
computes the palette color into the local assignedColor and line 63
increments userColorIndex; the clientInfo object literal on lines 66-73 then
uses the shorthand property name color, and no variable named color is in
scope anywhere in rooms.js, so evaluating the literal throws a
ReferenceError.  The increment has already happened; clients.set and the
lastActivityAt update on lines 76-77 are never reached.  The thrown error is
returned alongside the partially mutated room. -/
def DrawingRoom.addClient (room : DrawingRoom) (ws : Conn) (userId : String)
    (username : String) (now : Int) : DrawingRoom × Except JsError ClientInfo :=
  let assignedColor := USER_COLORS.getD (room.userColorIndex % USER_COLORS.length) ""
  let roomAfterIncrement := { room with userColorIndex := room.userColorIndex + 1 }
  ( roomAfterIncrement
  , Except.error (JsError.referenceError "color") )

/-- Embedding of DrawingRoom.removeClient (rooms.js lines 94-106): deletes
the entry keyed by the connection, returning its info when present. -/
def DrawingRoom.removeClient (room : DrawingRoom) (ws : Conn) :
    DrawingRoom × Option ClientInfo :=
  match room.clients.find? (fun c => c.1 == ws) with
  | some entry =>
    ( { room with clients := room.clients.filter (fun c => !(c.1 == ws)) }
    , some entry.2 )
  | none => (room, none)

/-- Embedding of DrawingRoom.isEmpty. -/
def DrawingRoom.isEmpty (room : DrawingRoom) : Bool :=
  room.clients.length == 0

/-- Embedding of DrawingRoom.getClientCount. -/
def DrawingRoom.getClientCount (room : DrawingRoom) : Nat :=
  room.clients.length

/-- Embedding of DrawingRoom.getActiveUsers (rooms.js lines 155-171). -/
def DrawingRoom.getActiveUsers (room : DrawingRoom) : List ActiveUser :=
  (room.clients.filter (fun c => c.2.isActive)).map
    (fun c =>
      { userId := c.2.userId
        username := c.2.username
        color := c.2.color
        joinedAt := c.2.joinedAt })

/-- Statistics object returned by DrawingRoom.getStats. -/
structure RoomStats where
  id : String
  clientCount : Nat
  operationCount : Nat
  createdAt : Int
  lastActivityAt : Int
  uptime : Int
  users : List ActiveUser
deriving DecidableEq, Repr

/-- Embedding of DrawingRoom.getStats (rooms.js lines 242-252). -/
def DrawingRoom.getStats (room : DrawingRoom) (now : Int) : RoomStats :=
  { id := room.id
    clientCount := room.clients.length
    operationCount := room.drawingState.getHistory.length
    createdAt := room.createdAt
    lastActivityAt := room.lastActivityAt
    uptime := now - room.createdAt
    users := room.getActiveUsers }

/-- A server-to-client message. -/
inductive Msg where
  | payload (fields : JsObject)
  | loadHistory (drawingHistory : List JsObject) (operationHistory : List JsObject)
      (userInfo : ClientInfo) (roomStats : RoomStats)
  | userJoined (users : List ActiveUser) (clientCount : Nat)
  | userLeft (users : List ActiveUser) (clientCount : Nat)
  | errorMsg (message : String)
deriving DecidableEq, Repr

/-- Embedding of DrawingRoom.broadcast (rooms.js lines 117-135): one send
per connected client whose socket is OPEN and is not the excluded one.  The
returned list is the sequence of performed sends. -/
def DrawingRoom.broadcast (room : DrawingRoom) (data : Msg)
    (excludeWs : Option Conn) : List (Conn × Msg) :=
  room.clients.filterMap
    (fun c =>
      if c.1.readyState = 1 ∧ some c.1 ≠ excludeWs then some (c.1, data)
      else none)

/-- Embedding of DrawingRoom.broadcastAll (rooms.js lines 144-146). -/
def DrawingRoom.broadcastAll (room : DrawingRoom) (data : Msg) :
    List (Conn × Msg) :=
  room.broadcast data none

/-- Embedding of DrawingRoom.recordOperation (rooms.js lines 200-203): the
boolean addOperation returns is discarded; lastActivityAt is refreshed. -/
def DrawingRoom.recordOperation (room : DrawingRoom) (operation : JsObject)
    (now : Int) : DrawingRoom :=
  { room with
    drawingState := (addOperation room.drawingState operation now).2
    lastActivityAt := now }

/-- Embedding of DrawingRoom.getDrawingHistory. -/
def DrawingRoom.getDrawingHistory (room : DrawingRoom) : List JsObject :=
  room.drawingState.getHistory

/-- Embedding of DrawingRoom.clearDrawing (rooms.js lines 230-233). -/
def DrawingRoom.clearDrawing (room : DrawingRoom) (now : Int) : DrawingRoom :=
  { room with
    drawingState := room.drawingState.clear
    lastActivityAt := now }

/-- The room directory held by the RoomManager: room id to room. -/
structure ServerState where
  rooms : List (String × DrawingRoom)
deriving DecidableEq, Repr

/-- Embedding of RoomManager.getOrCreateRoom (rooms.js lines 299-309). -/
def getOrCreateRoom (rooms : List (String × DrawingRoom)) (roomId : String)
    (now : Int) : List (String × DrawingRoom) × DrawingRoom :=
  match rooms.find? (fun r => r.1 == roomId) with
  | some entry => (rooms, entry.2)
  | none =>
    let newRoom := DrawingRoom.create roomId now
    (rooms ++ [(roomId, newRoom)], newRoom)

/-- Writing a mutated room object back into the directory (JavaScript rooms
are mutated through references; the explicit map update models that). -/
def updateRoom (rooms : List (String × DrawingRoom)) (roomId : String)
    (room : DrawingRoom) : List (String × DrawingRoom) :=
  rooms.map (fun r => if r.1 == roomId then (roomId, room) else r)

/-- Embedding of RoomManager.deleteRoom (rooms.js lines 326-334): the room
is destroyed and removed from the directory. -/
def deleteRoom (rooms : List (String × DrawingRoom)) (roomId : String) :
    List (String × DrawingRoom) :=
  rooms.filter (fun r => !(r.1 == roomId))

/-- Embedding of the idle sweep body in RoomManager.startCleanupInterval
(rooms.js lines 364-387): every room that is empty and whose lastActivityAt
is older than one hour before now is deleted. -/
def cleanupSweep (st : ServerState) (now : Int) : ServerState :=
  let oneHourInMs : Int := 60 * 60 * 1000
  let inactivityThreshold : Int := now - oneHourInMs
  ⟨st.rooms.filter
    (fun r => !(r.2.isEmpty && decide (r.2.lastActivityAt < inactivityThreshold)))⟩

/- ========== Connection handlers (main server file, src/unnamed/part_000) = -/

/-- The per-connection closure state of the WebSocket handler: userId,
username and the currentRoom reference (modelled by the room id). -/
structure Session where
  userId : String
  username : String
  currentRoom : Option String
deriving DecidableEq, Repr

/-- JavaScript `value || defaultString` for the places where the result is
used as a string (room id, username); non-string truthy values are outside
the modelled message space. -/
def jsOrStr (v : JsValue) (dflt : String) : String :=
  match v with
  | JsValue.str s => if s == "" then dflt else s
  | _ => dflt

/-- Embedding of handleDraw (part_000 lines 198-238).  The operation object
literal on lines 206-217 assigns the key x1 twice (line 211 with data.x1 and
line 212 with data.y1) and never assigns y1; the duplicate assignment is kept
verbatim in the field list, so reads see x1 = data.y1 and y1 absent.  The
relayed message on lines 224-235 carries the correct keys.  Returns the
mutated room together with the performed sends. -/
def handleDraw (room : DrawingRoom) (ws : Conn) (userId : String)
    (data : JsObject) (now : Int) : DrawingRoom × List (Conn × Msg) :=
  let operation : JsObject :=
    ⟨[("type", JsValue.str "DRAW"),
      ("userId", JsValue.str userId),
      ("x0", data.get "x0"),
      ("y0", data.get "y0"),
      ("x1", data.get "x1"),
      ("x1", data.get "y1"),
      ("color", data.get "color"),
      ("size", data.get "size"),
      ("timestamp", data.get "timestamp"),
      ("operationId", data.get "operationId")]⟩
  let room1 := room.recordOperation operation now
  let outMsg : Msg := Msg.payload
    ⟨[("type", JsValue.str "DRAW"),
      ("userId", JsValue.str userId),
      ("x0", data.get "x0"),
      ("y0", data.get "y0"),
      ("x1", data.get "x1"),
      ("y1", data.get "y1"),
      ("color", data.get "color"),
      ("size", data.get "size"),
      ("timestamp", data.get "timestamp"),
      ("operationId", data.get "operationId")]⟩
  (room1, room1.broadcast outMsg (some ws))

/-- Embedding of handleErase (part_000 lines 245-279). -/
def handleErase (room : DrawingRoom) (ws : Conn) (userId : String)
    (data : JsObject) (now : Int) : DrawingRoom × List (Conn × Msg) :=
  let operation : JsObject :=
    ⟨[("type", JsValue.str "ERASE"),
      ("userId", JsValue.str userId),
      ("x0", data.get "x0"),
      ("y0", data.get "y0"),
      ("x1", data.get "x1"),
      ("y1", data.get "y1"),
      ("size", data.get "size"),
      ("timestamp", data.get "timestamp"),
      ("operationId", data.get "operationId")]⟩
  let room1 := room.recordOperation operation now
  let outMsg : Msg := Msg.payload
    ⟨[("type", JsValue.str "ERASE"),
      ("userId", JsValue.str userId),
      ("x0", data.get "x0"),
      ("y0", data.get "y0"),
      ("x1", data.get "x1"),
      ("y1", data.get "y1"),
      ("size", data.get "size"),
      ("timestamp", data.get "timestamp"),
      ("operationId", data.get "operationId")]⟩
  (room1, room1.broadcast outMsg (some ws))

/-- Embedding of handleUndo (part_000 lines 287-309): recordUndo on the
room state; on success the UNDO message goes to ALL clients via
broadcastAll, on failure nothing is sent. -/
def handleUndo (room : DrawingRoom) (ws : Conn) (userId : String)
    (data : JsObject) (now : Int) : DrawingRoom × List (Conn × Msg) :=
  let result := recordUndo room.drawingState data now
  if result.1 then
    let room1 := { room with drawingState := result.2 }
    let outMsg : Msg := Msg.payload
      ⟨[("type", JsValue.str "UNDO"),
        ("userId", JsValue.str userId),
        ("operationId", data.get "operationId"),
        ("timestamp", data.get "timestamp")]⟩
    (room1, room1.broadcastAll outMsg)
  else
    (room, [])

/-- Embedding of handleRedo (part_000 lines 316-336). -/
def handleRedo (room : DrawingRoom) (ws : Conn) (userId : String)
    (data : JsObject) (now : Int) : DrawingRoom × List (Conn × Msg) :=
  let result := recordRedo room.drawingState data now
  if result.1 then
    let room1 := { room with drawingState := result.2 }
    let outMsg : Msg := Msg.payload
      ⟨[("type", JsValue.str "REDO"),
        ("userId", JsValue.str userId),
        ("operationId", data.get "operationId"),
        ("timestamp", data.get "timestamp")]⟩
    (room1, room1.broadcastAll outMsg)
  else
    (room, [])

/-- Embedding of handleClearCanvas (part_000 lines 343-360): wipes the
drawing state and tells everyone, sender included. -/
def handleClearCanvas (room : DrawingRoom) (ws : Conn) (userId : String)
    (data : JsObject) (now : Int) : DrawingRoom × List (Conn × Msg) :=
  let room1 := room.clearDrawing now
  let outMsg : Msg := Msg.payload
    ⟨[("type", JsValue.str "CLEAR_CANVAS"),
      ("userId", JsValue.str userId),
      ("timestamp", data.get "timestamp")]⟩
  (room1, room1.broadcastAll outMsg)

/-- Embedding of handleJoinRoom (part_000 lines 158-188) as run inside the
message-loop try/catch.  The room is resolved or created and currentRoom is
assigned (line 166) before addClient is called (line 169); addClient throws,
so control jumps to the catch block of the message handler (lines 102-113),
which sends the generic ERROR reply.  The LOAD_HISTORY reply and the
USER_JOINED broadcast of the success path are modelled in the ok branch,
which the thrown error makes unreachable. -/
def handleJoinRoom (st : ServerState) (sess : Session) (ws : Conn)
    (data : JsObject) (now : Int) : ServerState × Session × List (Conn × Msg) :=
  let roomId := jsOrStr (data.get "roomId") "default"
  let username := jsOrStr (data.get "username") sess.username
  let resolved := getOrCreateRoom st.rooms roomId now
  let sess1 := { sess with username := username, currentRoom := some roomId }
  let added := (resolved.2).addClient ws sess.userId username now
  match added.2 with
  | Except.error _ =>
    ( ⟨updateRoom resolved.1 roomId added.1⟩
    , sess1
    , [(ws, Msg.errorMsg "Server failed to process your message")] )
  | Except.ok userInfo =>
    let room1 := added.1
    let selfReply : Msg := Msg.loadHistory room1.getDrawingHistory
      room1.drawingState.getOperationHistory userInfo (room1.getStats now)
    let joinedSends := room1.broadcastAll
      (Msg.userJoined room1.getActiveUsers room1.getClientCount)
    ( ⟨updateRoom resolved.1 roomId room1⟩
    , sess1
    , (ws, selfReply) :: joinedSends )

/-- Dispatch of a DRAW message at the connection level (the guard on
part_000 lines 200-203 drops the message when the user is in no room). -/
def serverHandleDraw (st : ServerState) (sess : Session) (ws : Conn)
    (data : JsObject) (now : Int) : ServerState × List (Conn × Msg) :=
  match sess.currentRoom with
  | none => (st, [])
  | some rid =>
    match st.rooms.find? (fun r => r.1 == rid) with
    | none => (st, [])
    | some entry =>
      let result := handleDraw entry.2 ws sess.userId data now
      (⟨updateRoom st.rooms rid result.1⟩, result.2)

/-- Embedding of the close handler (part_000 lines 119-138): the client is
removed from its current room; when the room is then empty it is deleted
from the manager immediately, otherwise the remaining users get USER_LEFT. -/
def closeHandler (st : ServerState) (sess : Session) (ws : Conn) :
    ServerState × List (Conn × Msg) :=
  match sess.currentRoom with
  | none => (st, [])
  | some rid =>
    match st.rooms.find? (fun r => r.1 == rid) with
    | none => (st, [])
    | some entry =>
      let removed := (entry.2).removeClient ws
      let room1 := removed.1
      if !(room1.isEmpty) then
        ( ⟨updateRoom st.rooms rid room1⟩
        , room1.broadcastAll (Msg.userLeft room1.getActiveUsers room1.getClientCount) )
      else
        (⟨deleteRoom st.rooms rid⟩, [])

/- ===================== Reachability and bulk appends ==================== -/

/-- States of a DrawingState reachable from the fresh state by any sequence
of append, undo, redo and clear steps. -/
inductive Reachable : DrawingState → Prop where
  | init (now : Int) : Reachable (DrawingState.initial now)
  | append (s : DrawingState) (operation : JsObject) (now : Int) :
      Reachable s → Reachable (addOperation s operation now).2
  | undo (s : DrawingState) (undoOp : JsObject) (now : Int) :
      Reachable s → Reachable (recordUndo s undoOp now).2
  | redo (s : DrawingState) (redoOp : JsObject) (now : Int) :
      Reachable s → Reachable (recordRedo s redoOp now).2
  | clearStep (s : DrawingState) :
      Reachable s → Reachable s.clear

/-- Folding addOperation over a list of operations (all with the same server
timestamp; the timestamp plays no role in the capacity argument). -/
def addAll (s : DrawingState) (ops : List JsObject) (now : Int) : DrawingState :=
  ops.foldl (fun st op => (addOperation st op now).2) s

/-- A concrete well-formed DRAW operation, indexed so that operation ids
are pairwise distinct numbers (all nonzero, hence truthy). -/
def sampleOp (k : Nat) : JsObject :=
  ⟨[("type", JsValue.str "DRAW"), ("userId", JsValue.str "u"),
    ("timestamp", JsValue.num 0), ("x0", JsValue.num 0), ("y0", JsValue.num 0),
    ("x1", JsValue.num 1), ("y1", JsValue.num 1), ("color", JsValue.str "#000"),
    ("size", JsValue.num 3), ("operationId", JsValue.num (Int.ofNat k + 1))]⟩

/-- Five hundred and one concrete operations, one past the capacity bound. -/
def sampleOps : List JsObject :=
  (List.range 501).map sampleOp

/-- A CLEAR_CANVAS operation as validateOperation accepts it (type, userId
and timestamp present; no per-type field requirements for this type). -/
def clearOpSample : JsObject :=
  ⟨[("type", JsValue.str "CLEAR_CANVAS"), ("userId", JsValue.str "u1"),
    ("timestamp", JsValue.num 5), ("operationId", JsValue.num 9)]⟩

/-- An undo request naming the ClearAll operation above. -/
def undoClearSample : JsObject := ⟨[("operationId", JsValue.num 9)]⟩

/-- The JOIN_ROOM message of the scenario participant A. -/
def joinDataA : JsObject :=
  ⟨[("roomId", JsValue.str "r1"), ("username", JsValue.str "A")]⟩

/-- The JOIN_ROOM message of the scenario participant B. -/
def joinDataB : JsObject :=
  ⟨[("roomId", JsValue.str "r1"), ("username", JsValue.str "B")]⟩

/-- The DRAW message of the spec scenario: o1 from (0,0) to (5,5). -/
def drawDataA : JsObject :=
  ⟨[("x0", JsValue.num 0), ("y0", JsValue.num 0), ("x1", JsValue.num 5),
    ("y1", JsValue.num 5), ("color", JsValue.str "#000"),
    ("size", JsValue.num 3), ("timestamp", JsValue.num 20),
    ("operationId", JsValue.str "o1")]⟩

def wsA : Conn := ⟨1, 1⟩

def wsB : Conn := ⟨2, 1⟩

def sessA0 : Session := ⟨"uA", "User-A", none⟩

def sessB0 : Session := ⟨"uB", "User-B", none⟩

/- ===================== Concrete witness data =========================== -/

def undoSample0 : JsObject := ⟨[("operationId", JsValue.num 1)]⟩

def emptyObj : JsObject := ⟨[]⟩

def missUndo : JsObject := ⟨[("operationId", JsValue.num 99)]⟩

/-- The log after one valid append of sampleOp 0. -/
def sampleState : DrawingState :=
  (addOperation (DrawingState.initial 0) (sampleOp 0) 1).2

def sampleInfo : ClientInfo := ⟨"uA", "A", "#FF6B6B", 0, 0, true⟩

def sampleInfo2 : ClientInfo := ⟨"uB", "B", "#4ECDC4", 0, 0, true⟩

/-- A room with two registered open connections and one stored operation. -/
def sampleRoom : DrawingRoom :=
  ⟨"r1", [(wsA, sampleInfo), (wsB, sampleInfo2)], sampleState, 2, 0, 0⟩

/-- The tail of sampleOps: operations 1 to 500. -/
def restSample : List JsObject :=
  (List.range 500).map (fun k => sampleOp (k + 1))

/- ===================== Theorems ======================================== -/

theorem jsEq_refl (v : JsValue) : jsEq v v = true := by
  cases v <;> simp [jsEq]

theorem JsObject.get_foldl (k : String) (l : List (String × JsValue)) :
    ∀ (a : JsValue),
      l.foldl (fun acc kv => if kv.1 == k then kv.2 else acc) a
        = if (JsObject.hasField ⟨l⟩ k) then JsObject.get ⟨l⟩ k else a := by
  induction l with
  | nil => intro a; simp [JsObject.hasField, JsObject.get]
  | cons kv rest ih =>
    intro a
    have hg : JsObject.get ⟨kv :: rest⟩ k
        = if (JsObject.hasField ⟨rest⟩ k) then JsObject.get ⟨rest⟩ k
          else (if kv.1 == k then kv.2 else JsValue.undef) := by
      show (kv :: rest).foldl _ _ = _
      rw [List.foldl_cons, ih]
    rw [List.foldl_cons, ih, hg]
    have hcons : JsObject.hasField ⟨kv :: rest⟩ k
        = ((kv.1 == k) || JsObject.hasField ⟨rest⟩ k) := rfl
    rw [hcons]
    cases hr : JsObject.hasField ⟨rest⟩ k <;> cases hk : (kv.1 == k) <;>
      simp [hr, hk]

theorem JsObject.get_append (l l2 : List (String × JsValue)) (k : String) :
    JsObject.get ⟨l ++ l2⟩ k
      = if (JsObject.hasField ⟨l2⟩ k) then JsObject.get ⟨l2⟩ k
        else JsObject.get ⟨l⟩ k := by
  show (l ++ l2).foldl _ _ = _
  rw [List.foldl_append]
  exact JsObject.get_foldl k l2 (JsObject.get ⟨l⟩ k)

/- ===================== Equation lemmas for the log operations =========== -/

theorem addOperation_invalid (s : DrawingState) (operation : JsObject) (now : Int)
    (h : validateOperation operation = false) :
    addOperation s operation now = (false, s) := by
  simp [addOperation, h]

theorem addOperation_truthy (s : DrawingState) (operation : JsObject) (now : Int)
    (hv : validateOperation operation = true)
    (ht : truthy (operation.get "operationId") = true) :
    addOperation s operation now =
      (true,
        { s with
          drawingHistory :=
            if s.maxHistorySize < s.drawingHistory.length + 1
            then (s.drawingHistory ++ [enrichOp operation now]).drop 1
            else s.drawingHistory ++ [enrichOp operation now]
          operationStack := s.operationStack ++ [operation]
          redoStack := []
          uuidCounter := s.uuidCounter }) := by
  simp [addOperation, hv, ht, enrichOp, List.length_append]

theorem recordUndo_not_found (s : DrawingState) (undoOp : JsObject) (now : Int)
    (h : removeFirst
      (fun op => jsEq (op.get "id") (undoOp.get "operationId"))
      s.drawingHistory = none) :
    recordUndo s undoOp now = (false, s) := by
  simp [recordUndo, h]

theorem recordUndo_found (s : DrawingState) (undoOp : JsObject) (now : Int)
    (removed : JsObject) (rest : List JsObject)
    (h : removeFirst
      (fun op => jsEq (op.get "id") (undoOp.get "operationId"))
      s.drawingHistory = some (removed, rest)) :
    recordUndo s undoOp now =
      (true,
        { s with
          drawingHistory := rest
          redoStack := s.redoStack ++ [removed]
          operationHistory := s.operationHistory ++ [undoAudit undoOp now] }) := by
  simp [recordUndo, h]

theorem recordRedo_empty (s : DrawingState) (redoOp : JsObject) (now : Int)
    (h : s.redoStack = []) :
    recordRedo s redoOp now = (false, s) := by
  simp [recordRedo, h]

theorem recordRedo_pop (s : DrawingState) (redoOp : JsObject) (now : Int)
    (operation : JsObject) (h : s.redoStack.getLast? = some operation) :
    recordRedo s redoOp now =
      (true,
        { s with
          redoStack := s.redoStack.dropLast
          drawingHistory := s.drawingHistory ++ [operation]
          operationHistory :=
            s.operationHistory ++ [redoAudit redoOp operation now] }) := by
  simp [recordRedo, h]

theorem removeFirst_length {α : Type} (p : α → Bool) :
    ∀ (l : List α) (x : α) (r : List α),
      removeFirst p l = some (x, r) → r.length + 1 = l.length := by
  intro l
  induction l with
  | nil => intro x r hc; simp [removeFirst] at hc
  | cons y ys ih =>
    intro x r hc
    simp only [removeFirst] at hc
    by_cases hp : p y = true
    · rw [if_pos hp] at hc
      simp only [Option.some.injEq, Prod.mk.injEq] at hc
      obtain ⟨-, hr⟩ := hc
      subst hr
      simp
    · rw [if_neg hp] at hc
      rcases hmap : removeFirst p ys with - | ⟨x2, r2⟩
      · rw [hmap] at hc; simp at hc
      · rw [hmap] at hc
        simp only [Option.map, Option.some.injEq, Prod.mk.injEq] at hc
        obtain ⟨-, hr⟩ := hc
        subst hr
        have := ih x2 r2 hmap
        simp only [List.length_cons]
        omega

theorem removeFirst_eq_none {α : Type} (p : α → Bool) (l : List α)
    (h : ∀ x ∈ l, p x = false) : removeFirst p l = none := by
  induction l with
  | nil => rfl
  | cons y ys ih =>
    simp only [removeFirst]
    rw [if_neg (by simp [h y (List.mem_cons_self y ys)])]
    rw [ih (fun x hx => h x (List.mem_cons_of_mem y hx))]
    rfl

theorem addOperation_snd_invariant (s : DrawingState) (operation : JsObject)
    (now : Int)
    (h : s.drawingHistory.length + s.redoStack.length ≤ s.maxHistorySize) :
    (addOperation s operation now).2.drawingHistory.length
      + (addOperation s operation now).2.redoStack.length
      ≤ (addOperation s operation now).2.maxHistorySize
    ∧ (addOperation s operation now).2.maxHistorySize = s.maxHistorySize := by
  by_cases hv : validateOperation operation = true
  · constructor
    · simp only [addOperation, hv, Bool.not_true, Bool.false_eq_true, if_false]
      simp only [List.length_nil, Nat.add_zero]
      split_ifs <;>
        simp only [List.length_drop, List.length_append, List.length_cons,
          List.length_nil] at * <;>
        omega
    · simp [addOperation, hv]
  · rw [addOperation_invalid s operation now (by simpa using hv)]
    exact ⟨h, rfl⟩

theorem reachable_invariant (s : DrawingState) (h : Reachable s) :
    s.drawingHistory.length + s.redoStack.length ≤ s.maxHistorySize
      ∧ s.maxHistorySize = 500 := by
  induction h with
  | init now => simp [DrawingState.initial]
  | append s operation now _ ih =>
    have := addOperation_snd_invariant s operation now ih.1
    exact ⟨this.1, this.2.trans ih.2⟩
  | undo s undoOp now _ ih =>
    rcases hr : removeFirst
        (fun op => jsEq (op.get "id") (undoOp.get "operationId"))
        s.drawingHistory with - | ⟨removed, rest⟩
    · rw [recordUndo_not_found s undoOp now hr]
      exact ih
    · rw [recordUndo_found s undoOp now removed rest hr]
      have := removeFirst_length _ s.drawingHistory removed rest hr
      refine ⟨?_, ih.2⟩
      simp only [List.length_append, List.length_cons, List.length_nil]
      omega
  | redo s redoOp now _ ih =>
    rcases hr : s.redoStack.getLast? with - | operation
    · rw [recordRedo_empty s redoOp now (by simpa using hr)]
      exact ih
    · rw [recordRedo_pop s redoOp now operation hr]
      have hne : s.redoStack ≠ [] := by
        intro hc; rw [hc] at hr; simp at hr
      have hpos : 0 < s.redoStack.length := List.length_pos.2 hne
      refine ⟨?_, ih.2⟩
      simp only [List.length_append, List.length_cons, List.length_nil,
        List.length_dropLast]
      omega
  | clearStep s _ ih =>
    refine ⟨?_, ih.2⟩
    simp [DrawingState.clear]

theorem drop_step_full {α : Type} (h : List α) (e : α) (r : List α) (k : Nat)
    (hL : h.length = 500) :
    List.drop ((List.drop 1 (h ++ [e])).length + k - 500)
        (List.drop 1 (h ++ [e]) ++ r)
      = List.drop (h.length + (k + 1) - 500) (h ++ e :: r) := by
  have h1 : (List.drop 1 (h ++ [e])).length = 500 := by
    simp [List.length_drop, List.length_append, hL]
  have h2 : h.length + (k + 1) - 500 = k + 1 := by omega
  have h3 : (List.drop 1 (h ++ [e])).length + k - 500 = k := by omega
  rw [h2, h3]
  have h4 : h ++ e :: r = (h ++ [e]) ++ r := by simp
  rw [h4]
  have h5 : (1 : Nat) ≤ (h ++ [e]).length := by simp
  calc List.drop k (List.drop 1 (h ++ [e]) ++ r)
      = List.drop k (List.drop 1 ((h ++ [e]) ++ r)) := by
        rw [List.drop_append_of_le_length h5]
    _ = List.drop (1 + k) ((h ++ [e]) ++ r) := List.drop_drop k 1 _
    _ = List.drop (k + 1) ((h ++ [e]) ++ r) := by rw [Nat.add_comm]

theorem drop_step_room {α : Type} (h : List α) (e : α) (r : List α) (k : Nat) :
    List.drop ((h ++ [e]).length + k - 500) ((h ++ [e]) ++ r)
      = List.drop (h.length + (k + 1) - 500) (h ++ e :: r) := by
  have h4 : (h ++ [e]) ++ r = h ++ e :: r := by simp
  have h5 : (h ++ [e]).length + k - 500 = h.length + (k + 1) - 500 := by
    simp only [List.length_append, List.length_cons, List.length_nil]
    omega
  rw [h4, h5]

theorem addAll_drawingHistory (ops : List JsObject) :
    ∀ (s : DrawingState) (now : Int),
      s.maxHistorySize = 500 → s.drawingHistory.length ≤ 500 →
      (∀ op ∈ ops, validateOperation op = true
        ∧ truthy (op.get "operationId") = true) →
      (addAll s ops now).drawingHistory
        = (s.drawingHistory ++ ops.map (fun op => enrichOp op now)).drop
            (s.drawingHistory.length + ops.length - 500) := by
  induction ops with
  | nil =>
    intro s now hmax hlen hops
    have h0 : s.drawingHistory.length - 500 = 0 := by omega
    simp [addAll, h0]
  | cons op rest ih =>
    intro s now hmax hlen hops
    have hv := (hops op (List.mem_cons_self op rest)).1
    have ht := (hops op (List.mem_cons_self op rest)).2
    have hstep := addOperation_truthy s op now hv ht
    have haddAll : addAll s (op :: rest) now
        = addAll (addOperation s op now).2 rest now := rfl
    rw [haddAll, hstep]
    by_cases hcap : s.maxHistorySize < s.drawingHistory.length + 1
    · have hl : s.drawingHistory.length = 500 := by omega
      simp only [if_pos hcap]
      have h1 := ih
        { s with
          drawingHistory := (s.drawingHistory ++ [enrichOp op now]).drop 1
          operationStack := s.operationStack ++ [op]
          redoStack := []
          uuidCounter := s.uuidCounter }
        now hmax
        (by
          simp only [List.length_drop, List.length_append, List.length_cons,
            List.length_nil]
          omega)
        (fun q hq => hops q (List.mem_cons_of_mem op hq))
      rw [h1]
      have hd := drop_step_full s.drawingHistory (enrichOp op now)
        (rest.map (fun q => enrichOp q now)) rest.length hl
      simpa using hd
    · simp only [if_neg hcap]
      have h1 := ih
        { s with
          drawingHistory := s.drawingHistory ++ [enrichOp op now]
          operationStack := s.operationStack ++ [op]
          redoStack := []
          uuidCounter := s.uuidCounter }
        now hmax
        (by
          simp only [List.length_append, List.length_cons, List.length_nil]
          omega)
        (fun q hq => hops q (List.mem_cons_of_mem op hq))
      rw [h1]
      have hd := drop_step_room s.drawingHistory (enrichOp op now)
        (rest.map (fun q => enrichOp q now)) rest.length
      simpa using hd

theorem enrichOp_get_id (op : JsObject) (now : Int) :
    (enrichOp op now).get "id" = op.get "operationId" := by
  show JsObject.get ⟨op.fields ++ _⟩ "id" = _
  rw [JsObject.get_append]
  simp [JsObject.hasField, JsObject.get]

/- ===================== Claim theorems ================================== -/

/-- C5.  Undo/redo round trip: from an empty log, append(A); append(B);
undo(A.id) leaves history == [B], and the following redo() succeeds and
leaves history == [B, A] — A re-appended at the end, not reinserted at its
original position.  Histories hold the enriched forms of A and B (the
operation plus its id and addedAt fields), A.id being A.operationId. -/
theorem undo_redo_round_trip (A B undoOp redoOp : JsObject)
    (t0 t1 t2 t3 t4 : Int)
    (hA : validateOperation A = true) (hB : validateOperation B = true)
    (hta : truthy (A.get "operationId") = true)
    (htb : truthy (B.get "operationId") = true)
    (hne : jsEq (B.get "operationId") (A.get "operationId") = false)
    (hu : undoOp.get "operationId" = A.get "operationId") :
    (recordUndo (addOperation (addOperation (DrawingState.initial t0) A t1).2
        B t2).2 undoOp t3).1 = true
    ∧ (recordUndo (addOperation (addOperation (DrawingState.initial t0) A t1).2
        B t2).2 undoOp t3).2.drawingHistory = [enrichOp B t2]
    ∧ (recordRedo (recordUndo (addOperation (addOperation
        (DrawingState.initial t0) A t1).2 B t2).2 undoOp t3).2 redoOp t4).1 = true
    ∧ (recordRedo (recordUndo (addOperation (addOperation
        (DrawingState.initial t0) A t1).2 B t2).2 undoOp t3).2
        redoOp t4).2.drawingHistory = [enrichOp B t2, enrichOp A t1] := by
  have e1 : (addOperation (DrawingState.initial t0) A t1).2
      = ⟨[enrichOp A t1], [], [A], [], 500, t0, 0⟩ := by
    rw [addOperation_truthy _ _ _ hA hta]
    simp [DrawingState.initial]
  have e2 : (addOperation (addOperation (DrawingState.initial t0) A t1).2 B t2).2
      = ⟨[enrichOp A t1, enrichOp B t2], [], [A, B], [], 500, t0, 0⟩ := by
    rw [e1, addOperation_truthy _ _ _ hB htb]
    simp
  have hpA : jsEq ((enrichOp A t1).get "id") (undoOp.get "operationId") = true := by
    rw [enrichOp_get_id, hu]
    exact jsEq_refl _
  have hrm : removeFirst
      (fun op => jsEq (op.get "id") (undoOp.get "operationId"))
      [enrichOp A t1, enrichOp B t2] = some (enrichOp A t1, [enrichOp B t2]) := by
    simp [removeFirst, hpA]
  have e3 : (recordUndo (addOperation (addOperation
      (DrawingState.initial t0) A t1).2 B t2).2 undoOp t3)
      = (true, ⟨[enrichOp B t2], [undoAudit undoOp t3], [A, B],
          [enrichOp A t1], 500, t0, 0⟩) := by
    rw [e2, recordUndo_found _ _ _ _ _ (by exact hrm)]
    simp
  have e4 : (recordRedo (recordUndo (addOperation (addOperation
      (DrawingState.initial t0) A t1).2 B t2).2 undoOp t3).2 redoOp t4)
      = (true, ⟨[enrichOp B t2, enrichOp A t1],
          [undoAudit undoOp t3, redoAudit redoOp (enrichOp A t1) t4],
          [A, B], [], 500, t0, 0⟩) := by
    rw [e3]
    rw [recordRedo_pop _ _ _ (enrichOp A t1) (by simp)]
    simp
  refine ⟨?_, ?_, ?_, ?_⟩
  · rw [e3]
  · rw [e3]
  · rw [e4]
  · rw [e4]

/-- C6.  Redo invalidation: a successful append clears the redo buffer, so
after append(A); undo(A.id); append(C) the following redo() fails (returns
false) and changes nothing. -/
theorem redo_invalidation (A C undoOp redoOp : JsObject) (t0 t1 t2 t3 t4 : Int)
    (hA : validateOperation A = true) (hC : validateOperation C = true)
    (hta : truthy (A.get "operationId") = true)
    (htc : truthy (C.get "operationId") = true)
    (hu : undoOp.get "operationId" = A.get "operationId") :
    recordRedo (addOperation (recordUndo (addOperation
        (DrawingState.initial t0) A t1).2 undoOp t2).2 C t3).2 redoOp t4
      = (false, (addOperation (recordUndo (addOperation
          (DrawingState.initial t0) A t1).2 undoOp t2).2 C t3).2) := by
  have e1 : (addOperation (DrawingState.initial t0) A t1).2
      = ⟨[enrichOp A t1], [], [A], [], 500, t0, 0⟩ := by
    rw [addOperation_truthy _ _ _ hA hta]
    simp [DrawingState.initial]
  have hpA : jsEq ((enrichOp A t1).get "id") (undoOp.get "operationId") = true := by
    rw [enrichOp_get_id, hu]
    exact jsEq_refl _
  have hrm : removeFirst
      (fun op => jsEq (op.get "id") (undoOp.get "operationId"))
      [enrichOp A t1] = some (enrichOp A t1, []) := by
    simp [removeFirst, hpA]
  have e2 : (recordUndo (addOperation (DrawingState.initial t0) A t1).2 undoOp t2)
      = (true, ⟨[], [undoAudit undoOp t2], [A], [enrichOp A t1], 500, t0, 0⟩) := by
    rw [e1, recordUndo_found _ _ _ _ _ (by exact hrm)]
    simp
  have e3 : (addOperation (recordUndo (addOperation
      (DrawingState.initial t0) A t1).2 undoOp t2).2 C t3).2
      = ⟨[enrichOp C t3], [undoAudit undoOp t2], [A, C], [], 500, t0, 0⟩ := by
    rw [e2, addOperation_truthy _ _ _ hC htc]
    simp
  rw [e3, recordRedo_empty _ _ _ (by simp)]

theorem sampleOp_valid (k : Nat) : validateOperation (sampleOp k) = true := rfl

theorem sampleOp_get_operationId (k : Nat) :
    (sampleOp k).get "operationId" = JsValue.num (Int.ofNat k + 1) := rfl

theorem sampleOp_truthy (k : Nat) :
    truthy ((sampleOp k).get "operationId") = true := by
  rw [sampleOp_get_operationId]
  simp [truthy]
  omega

theorem sampleOps_sound :
    ∀ op ∈ sampleOps, validateOperation op = true
      ∧ truthy (op.get "operationId") = true := by
  intro op hop
  obtain ⟨k, -, rfl⟩ := List.mem_map.1 hop
  exact ⟨sampleOp_valid k, sampleOp_truthy k⟩

/-- C7.  Capacity bound.  First part: in every state reachable from the
fresh log by appends, undos, redos and clears, the history never exceeds
maxHistorySize = 500 entries (the redo stack cannot push it past the bound
because appends cap the history and clear the redo stack, while undo/redo
only move entries between the two).  Second part: appending 501 valid
operations to the fresh log leaves exactly 500 entries, the oldest operation
having been evicted first (the history is the enriched tail of the input,
dropping the first operation). -/
theorem capacity_bound :
    (∀ s : DrawingState, Reachable s → s.drawingHistory.length ≤ 500)
    ∧ (∀ (ops : List JsObject) (now t0 : Int),
        ops.length = 501 →
        (∀ op ∈ ops, validateOperation op = true
          ∧ truthy (op.get "operationId") = true) →
        (addAll (DrawingState.initial t0) ops now).drawingHistory
            = (ops.map (fun op => enrichOp op now)).drop 1
          ∧ (addAll (DrawingState.initial t0) ops now).drawingHistory.length
            = 500) := by
  constructor
  · intro s hs
    have h := reachable_invariant s hs
    omega
  · intro ops now t0 hn hops
    have h := addAll_drawingHistory ops (DrawingState.initial t0) now rfl
      (by simp [DrawingState.initial]) hops
    have hlen0 : (DrawingState.initial t0).drawingHistory = [] := rfl
    rw [hlen0] at h
    simp only [List.nil_append, List.length_nil, Nat.zero_add, hn] at h
    have hidx : (501 : Nat) - 500 = 1 := rfl
    rw [hidx] at h
    refine ⟨h, ?_⟩
    rw [h]
    simp [List.length_drop, List.length_map, hn]

/-- C9.  Logical misses are side-effect-free.  An undo whose operationId
matches nothing in history returns false and leaves the whole state (history,
redo stack, audit trail) untouched; a redo with an empty redo stack does the
same; and in both failure cases the connection handlers broadcast nothing to
the room and leave the room unchanged. -/
theorem logical_miss_no_side_effects :
    (∀ (s : DrawingState) (undoOp : JsObject) (now : Int),
      (∀ op ∈ s.drawingHistory,
        jsEq (op.get "id") (undoOp.get "operationId") = false) →
      recordUndo s undoOp now = (false, s))
    ∧ (∀ (s : DrawingState) (redoOp : JsObject) (now : Int),
        s.redoStack = [] → recordRedo s redoOp now = (false, s))
    ∧ (∀ (room : DrawingRoom) (ws : Conn) (userId : String) (data : JsObject)
        (now : Int),
        (∀ op ∈ room.drawingState.drawingHistory,
          jsEq (op.get "id") (data.get "operationId") = false) →
        handleUndo room ws userId data now = (room, []))
    ∧ (∀ (room : DrawingRoom) (ws : Conn) (userId : String) (data : JsObject)
        (now : Int),
        room.drawingState.redoStack = [] →
        handleRedo room ws userId data now = (room, [])) := by
  refine ⟨?_, ?_, ?_, ?_⟩
  · intro s undoOp now h
    exact recordUndo_not_found s undoOp now (removeFirst_eq_none _ _ h)
  · intro s redoOp now h
    exact recordRedo_empty s redoOp now h
  · intro room ws userId data now h
    have h1 := recordUndo_not_found room.drawingState data now
      (removeFirst_eq_none _ _ h)
    simp [handleUndo, h1]
  · intro room ws userId data now h
    have h1 := recordRedo_empty room.drawingState data now h
    simp [handleRedo, h1]

/-- C10.  Undo resolves ids only against the current history.  First part:
after 501 valid appends with pairwise distinct ids, the first operation has
been evicted, and an undo naming its id fails and leaves the state
unchanged.  Second part: an operation already removed by a prior undo can
not be undone again — the second identical undo request fails and changes
nothing. -/
theorem evicted_op_not_undoable :
    (∀ (o0 : JsObject) (rest : List JsObject) (undoOp : JsObject)
        (t0 now now2 : Int),
      rest.length = 500 →
      (∀ op ∈ o0 :: rest, validateOperation op = true
        ∧ truthy (op.get "operationId") = true) →
      (∀ op ∈ rest,
        jsEq (op.get "operationId") (o0.get "operationId") = false) →
      undoOp.get "operationId" = o0.get "operationId" →
      recordUndo (addAll (DrawingState.initial t0) (o0 :: rest) now) undoOp now2
        = (false, addAll (DrawingState.initial t0) (o0 :: rest) now))
    ∧ (∀ (A B undoOp : JsObject) (t0 t1 t2 t3 t4 : Int),
        validateOperation A = true → validateOperation B = true →
        truthy (A.get "operationId") = true →
        truthy (B.get "operationId") = true →
        jsEq (B.get "operationId") (A.get "operationId") = false →
        undoOp.get "operationId" = A.get "operationId" →
        recordUndo (recordUndo (addOperation (addOperation
            (DrawingState.initial t0) A t1).2 B t2).2 undoOp t3).2 undoOp t4
          = (false, (recordUndo (addOperation (addOperation
              (DrawingState.initial t0) A t1).2 B t2).2 undoOp t3).2)) := by
  constructor
  · intro o0 rest undoOp t0 now now2 hrest hops hdist hu
    have h := addAll_drawingHistory (o0 :: rest) (DrawingState.initial t0) now
      rfl (by simp [DrawingState.initial]) hops
    have hlen0 : (DrawingState.initial t0).drawingHistory = [] := rfl
    rw [hlen0] at h
    simp only [List.nil_append, List.length_nil, Nat.zero_add,
      List.length_cons, hrest, List.map_cons] at h
    have hidx : (500 : Nat) + 1 - 500 = 1 := rfl
    rw [hidx, List.drop_succ_cons, List.drop_zero] at h
    apply recordUndo_not_found
    rw [h]
    apply removeFirst_eq_none
    intro x hx
    obtain ⟨q, hq, rfl⟩ := List.mem_map.1 hx
    rw [enrichOp_get_id, hu]
    exact hdist q hq
  · intro A B undoOp t0 t1 t2 t3 t4 hA hB hta htb hne hu
    have e1 : (addOperation (DrawingState.initial t0) A t1).2
        = ⟨[enrichOp A t1], [], [A], [], 500, t0, 0⟩ := by
      rw [addOperation_truthy _ _ _ hA hta]
      simp [DrawingState.initial]
    have e2 : (addOperation (addOperation (DrawingState.initial t0) A t1).2 B t2).2
        = ⟨[enrichOp A t1, enrichOp B t2], [], [A, B], [], 500, t0, 0⟩ := by
      rw [e1, addOperation_truthy _ _ _ hB htb]
      simp
    have hpA : jsEq ((enrichOp A t1).get "id")
        (undoOp.get "operationId") = true := by
      rw [enrichOp_get_id, hu]
      exact jsEq_refl _
    have hrm : removeFirst
        (fun op => jsEq (op.get "id") (undoOp.get "operationId"))
        [enrichOp A t1, enrichOp B t2] = some (enrichOp A t1, [enrichOp B t2]) := by
      simp [removeFirst, hpA]
    have e3 : (recordUndo (addOperation (addOperation
        (DrawingState.initial t0) A t1).2 B t2).2 undoOp t3)
        = (true, ⟨[enrichOp B t2], [undoAudit undoOp t3], [A, B],
            [enrichOp A t1], 500, t0, 0⟩) := by
      rw [e2, recordUndo_found _ _ _ _ _ (by exact hrm)]
      simp
    have hpB : jsEq ((enrichOp B t2).get "id")
        (undoOp.get "operationId") = false := by
      rw [enrichOp_get_id, hu]
      exact hne
    have hnone : removeFirst
        (fun op => jsEq (op.get "id") (undoOp.get "operationId"))
        [enrichOp B t2] = none := by
      simp [removeFirst, hpB]
    rw [e3]
    exact recordUndo_not_found _ _ _ hnone

/-- C4 counterexample.  A ClearAll (CLEAR_CANVAS) operation is accepted
into the history, and an undo naming its id is NOT rejected: recordUndo
returns true and removes it, leaving the history empty — refuting the claim
that undo on ClearAll ids fails and leaves the history unchanged. -/
theorem clearall_undo_not_rejected :
    (addOperation (DrawingState.initial 0) clearOpSample 5).1 = true
    ∧ (addOperation (DrawingState.initial 0) clearOpSample 5).2.drawingHistory
        = [enrichOp clearOpSample 5]
    ∧ (enrichOp clearOpSample 5).get "type" = JsValue.str "CLEAR_CANVAS"
    ∧ (recordUndo (addOperation (DrawingState.initial 0) clearOpSample 5).2
        undoClearSample 6).1 = true
    ∧ (recordUndo (addOperation (DrawingState.initial 0) clearOpSample 5).2
        undoClearSample 6).2.drawingHistory = [] := by
  decide

/-- C4 amended.  recordUndo never inspects the operation type: an undo
whose operationId matches an operation in history succeeds and removes it
even when that operation is a ClearAll — there is no outright rejection of
ClearAll ids.  (In the server flow handleClearCanvas applies clear() and
never appends a CLEAR_CANVAS operation to history, so an undo naming a
ClearAll id can only fail as id-not-found.) -/
theorem clearall_undo_succeeds (s : DrawingState) (undoOp : JsObject)
    (now : Int) (removed : JsObject) (rest : List JsObject)
    (hfound : removeFirst
      (fun op => jsEq (op.get "id") (undoOp.get "operationId"))
      s.drawingHistory = some (removed, rest))
    (hclear : jsEq (removed.get "type") (JsValue.str "CLEAR_CANVAS") = true) :
    recordUndo s undoOp now
      = (true,
        { s with
          drawingHistory := rest
          redoStack := s.redoStack ++ [removed]
          operationHistory := s.operationHistory ++ [undoAudit undoOp now] }) :=
  recordUndo_found s undoOp now removed rest hfound

theorem handleDraw_operation_invalid (userId : String) (data : JsObject) :
    validateOperation
      ⟨[("type", JsValue.str "DRAW"),
        ("userId", JsValue.str userId),
        ("x0", data.get "x0"),
        ("y0", data.get "y0"),
        ("x1", data.get "x1"),
        ("x1", data.get "y1"),
        ("color", data.get "color"),
        ("size", data.get "size"),
        ("timestamp", data.get "timestamp"),
        ("operationId", data.get "operationId")]⟩ = false := rfl

/-- C1.  Draw operations are never appended to the history.  The operation
literal in handleDraw assigns x1 twice and never sets y1, so
validateOperation rejects every DRAW and addOperation stores nothing.
First part: for every room, sender and message, handleDraw leaves the
drawing history exactly as it was.  Second part (the spec scenario run
end-to-end): A joins room r1 and sends the o1 stroke; the room history is
still empty afterwards, and B on joining is NOT handed a LoadHistory with
o1 — B receives only the generic error reply (joins themselves fail, and
even on the intended success path the history B would receive is empty). -/
theorem draw_never_appended :
    (∀ (room : DrawingRoom) (ws : Conn) (userId : String) (data : JsObject)
      (now : Int),
      ((handleDraw room ws userId data now).1).drawingState.drawingHistory
        = room.drawingState.drawingHistory)
    ∧ ((((serverHandleDraw
          (handleJoinRoom ⟨[]⟩ sessA0 wsA joinDataA 10).1
          (handleJoinRoom ⟨[]⟩ sessA0 wsA joinDataA 10).2.1
          wsA drawDataA 20).1).rooms.find? (fun r => r.1 == "r1")).map
            (fun r => r.2.drawingState.drawingHistory) = some []
    ∧ (handleJoinRoom
          (serverHandleDraw
            (handleJoinRoom ⟨[]⟩ sessA0 wsA joinDataA 10).1
            (handleJoinRoom ⟨[]⟩ sessA0 wsA joinDataA 10).2.1
            wsA drawDataA 20).1
          sessB0 wsB joinDataB 30).2.2
        = [(wsB, Msg.errorMsg "Server failed to process your message")]) := by
  constructor
  · intro room ws userId data now
    simp only [handleDraw, DrawingRoom.recordOperation,
      addOperation_invalid _ _ _ (handleDraw_operation_invalid userId data)]
  · constructor
    · decide
    · decide

/-- C2.  Joins never succeed.  addClient evaluates the clientInfo literal
whose shorthand property color names no variable in scope, so it throws a
ReferenceError after having incremented userColorIndex; no ParticipantInfo
is ever returned, no connection is ever registered, and handleJoinRoom
always answers with the generic error reply from the message-loop catch. -/
theorem join_always_throws :
    (∀ (room : DrawingRoom) (ws : Conn) (userId username : String) (now : Int),
      DrawingRoom.addClient room ws userId username now
        = ({ room with userColorIndex := room.userColorIndex + 1 },
            Except.error (JsError.referenceError "color")))
    ∧ (∀ (room : DrawingRoom) (ws : Conn) (userId username : String) (now : Int),
        ((DrawingRoom.addClient room ws userId username now).1).clients
          = room.clients)
    ∧ (∀ (st : ServerState) (sess : Session) (ws : Conn) (data : JsObject)
        (now : Int),
        (handleJoinRoom st sess ws data now).2.2
          = [(ws, Msg.errorMsg "Server failed to process your message")]) := by
  refine ⟨fun room ws userId username now => rfl,
          fun room ws userId username now => rfl,
          fun st sess ws data now => ?_⟩
  simp only [handleJoinRoom]
  rcases hfind : (st.rooms.find? (fun r => r.1
      == jsOrStr (data.get "roomId") "default")) with - | entry <;>
    simp [getOrCreateRoom, hfind, DrawingRoom.addClient]

theorem recordOperation_clients (room : DrawingRoom) (operation : JsObject)
    (now : Int) :
    (room.recordOperation operation now).clients = room.clients := rfl

theorem not_mem_broadcast_excluded (room : DrawingRoom) (dataM : Msg)
    (P : Conn) (m : Msg) :
    (P, m) ∉ room.broadcast dataM (some P) := by
  intro hmem
  simp only [DrawingRoom.broadcast, List.mem_filterMap] at hmem
  obtain ⟨c, -, hf⟩ := hmem
  by_cases hcond : c.1.readyState = 1 ∧ some c.1 ≠ some P
  · rw [if_pos hcond] at hf
    simp only [Option.some.injEq, Prod.mk.injEq] at hf
    exact hcond.2 (by rw [hf.1])
  · rw [if_neg hcond] at hf
    exact Option.noConfusion hf

theorem mem_broadcast_of (room : DrawingRoom) (dataM : Msg) (ex : Option Conn)
    (Q : Conn) (infoQ : ClientInfo) (hQ : (Q, infoQ) ∈ room.clients)
    (hopen : Q.readyState = 1) (hex : some Q ≠ ex) :
    (Q, dataM) ∈ room.broadcast dataM ex := by
  simp only [DrawingRoom.broadcast, List.mem_filterMap]
  exact ⟨(Q, infoQ), hQ, by rw [if_pos ⟨hopen, hex⟩]⟩

/-- C8.  Broadcast sender-exclusion rule.  For a participant P with an open
connection: a DRAW or ERASE from P is relayed to every other open connection
in the room and never delivered back to P (the handlers broadcast with the
sender excluded), while a successful UNDO or REDO and every CLEAR_CANVAS
triggered by P is delivered to every open connection in the room — P
included (instantiate the quantifier at P) — via broadcastAll. -/
theorem broadcast_exclusion
    (room : DrawingRoom) (P : Conn) (infoP : ClientInfo)
    (userId : String) (data : JsObject) (now : Int)
    (hP : (P, infoP) ∈ room.clients) (hPopen : P.readyState = 1) :
    (∀ m : Msg, (P, m) ∉ (handleDraw room P userId data now).2)
    ∧ (∀ (Q : Conn) (infoQ : ClientInfo), (Q, infoQ) ∈ room.clients →
        Q.readyState = 1 → Q ≠ P →
        ∃ m : Msg, (Q, m) ∈ (handleDraw room P userId data now).2)
    ∧ (∀ m : Msg, (P, m) ∉ (handleErase room P userId data now).2)
    ∧ (∀ (Q : Conn) (infoQ : ClientInfo), (Q, infoQ) ∈ room.clients →
        Q.readyState = 1 → Q ≠ P →
        ∃ m : Msg, (Q, m) ∈ (handleErase room P userId data now).2)
    ∧ ((recordUndo room.drawingState data now).1 = true →
        ∀ (Q : Conn) (infoQ : ClientInfo), (Q, infoQ) ∈ room.clients →
          Q.readyState = 1 →
          ∃ m : Msg, (Q, m) ∈ (handleUndo room P userId data now).2)
    ∧ ((recordRedo room.drawingState data now).1 = true →
        ∀ (Q : Conn) (infoQ : ClientInfo), (Q, infoQ) ∈ room.clients →
          Q.readyState = 1 →
          ∃ m : Msg, (Q, m) ∈ (handleRedo room P userId data now).2)
    ∧ (∀ (Q : Conn) (infoQ : ClientInfo), (Q, infoQ) ∈ room.clients →
        Q.readyState = 1 →
        ∃ m : Msg, (Q, m) ∈ (handleClearCanvas room P userId data now).2) := by
  refine ⟨?_, ?_, ?_, ?_, ?_, ?_, ?_⟩
  · intro m hmem
    simp only [handleDraw] at hmem
    exact not_mem_broadcast_excluded _ _ _ _ hmem
  · intro Q infoQ hQ hopen hne
    exact ⟨_, mem_broadcast_of (room.recordOperation _ now) _ (some P) Q infoQ
      hQ hopen (by simpa using hne)⟩
  · intro m hmem
    simp only [handleErase] at hmem
    exact not_mem_broadcast_excluded _ _ _ _ hmem
  · intro Q infoQ hQ hopen hne
    exact ⟨_, mem_broadcast_of (room.recordOperation _ now) _ (some P) Q infoQ
      hQ hopen (by simpa using hne)⟩
  · intro hsucc Q infoQ hQ hopen
    simp only [handleUndo, hsucc, if_true]
    exact ⟨_, mem_broadcast_of
      { room with drawingState := (recordUndo room.drawingState data now).2 }
      _ none Q infoQ hQ hopen (by simp)⟩
  · intro hsucc Q infoQ hQ hopen
    simp only [handleRedo, hsucc, if_true]
    exact ⟨_, mem_broadcast_of
      { room with drawingState := (recordRedo room.drawingState data now).2 }
      _ none Q infoQ hQ hopen (by simp)⟩
  · intro Q infoQ hQ hopen
    exact ⟨_, mem_broadcast_of (room.clearDrawing now) _ none Q infoQ
      hQ hopen (by simp)⟩

/-- C3 counterexample.  A connection joins room r1 (the room is created and
the connection's currentRoom is set); when that connection closes
immediately afterwards — idle time zero, far inside the 1-hour retention
window — the close handler finds the room empty and deletes it on the spot:
the room does not persist past the last leave. -/
theorem room_destroyed_on_last_leave :
    ((handleJoinRoom ⟨[]⟩ sessA0 wsA joinDataA 0).1.rooms.find?
        (fun r => r.1 == "r1")).isSome = true
    ∧ ((closeHandler (handleJoinRoom ⟨[]⟩ sessA0 wsA joinDataA 0).1
          (handleJoinRoom ⟨[]⟩ sessA0 wsA joinDataA 0).2.1 wsA).1.rooms.find?
        (fun r => r.1 == "r1")) = none := by
  decide

/-- C3 amended.  A room IS destroyed synchronously on last-leave: whenever a
connection whose currentRoom is rid closes and the room is empty after the
removal, the close handler deletes the room immediately.  The periodic sweep
additionally destroys exactly the rooms that are both empty and idle past
the one-hour window; a participant rejoining after a last-leave gets a
brand-new room with empty history. -/
theorem close_deletes_empty_room :
    (∀ (st : ServerState) (sess : Session) (ws : Conn) (rid : String)
        (entry : String × DrawingRoom),
      sess.currentRoom = some rid →
      st.rooms.find? (fun r => r.1 == rid) = some entry →
      ((entry.2.removeClient ws).1.isEmpty) = true →
      ((closeHandler st sess ws).1.rooms.find? (fun r => r.1 == rid)) = none)
    ∧ (∀ (st : ServerState) (now : Int) (rid : String) (room : DrawingRoom),
        (rid, room) ∈ (cleanupSweep st now).rooms ↔
          ((rid, room) ∈ st.rooms
            ∧ ¬(room.isEmpty = true ∧ room.lastActivityAt < now - 60 * 60 * 1000))) := by
  constructor
  · intro st sess ws rid entry hcur hfind hempty
    simp only [closeHandler, hcur, hfind, hempty, Bool.not_true,
      Bool.false_eq_true, if_false]
    rw [List.find?_eq_none]
    intro x hx
    simp only [deleteRoom, List.mem_filter] at hx
    simpa using hx.2
  · intro st now rid room
    simp only [cleanupSweep, List.mem_filter]
    constructor
    · intro h
      refine ⟨h.1, ?_⟩
      have h2 := h.2
      simp only [Bool.not_eq_true', Bool.and_eq_false_iff] at h2
      intro hc
      rcases h2 with h2 | h2
      · rw [hc.1] at h2
        exact Bool.noConfusion h2
      · rw [decide_eq_false_iff_not] at h2
        exact h2 hc.2
    · intro h
      refine ⟨h.1, ?_⟩
      simp only [Bool.not_eq_true', Bool.and_eq_false_iff]
      by_cases he : room.isEmpty = true
      · right
        rw [decide_eq_false_iff_not]
        intro hlt
        exact h.2 ⟨he, hlt⟩
      · left
        simpa using he

/- ===================== Witnesses ======================================= -/

/-- Witness for undo_redo_round_trip at concrete operations. -/
theorem undo_redo_round_trip_witness :
    (recordUndo (addOperation (addOperation (DrawingState.initial 0)
        (sampleOp 0) 1).2 (sampleOp 1) 2).2 undoSample0 3).1 = true
    ∧ (recordUndo (addOperation (addOperation (DrawingState.initial 0)
        (sampleOp 0) 1).2 (sampleOp 1) 2).2 undoSample0 3).2.drawingHistory
        = [enrichOp (sampleOp 1) 2]
    ∧ (recordRedo (recordUndo (addOperation (addOperation
        (DrawingState.initial 0) (sampleOp 0) 1).2 (sampleOp 1) 2).2
        undoSample0 3).2 emptyObj 4).1 = true
    ∧ (recordRedo (recordUndo (addOperation (addOperation
        (DrawingState.initial 0) (sampleOp 0) 1).2 (sampleOp 1) 2).2
        undoSample0 3).2 emptyObj 4).2.drawingHistory
        = [enrichOp (sampleOp 1) 2, enrichOp (sampleOp 0) 1] :=
  undo_redo_round_trip (sampleOp 0) (sampleOp 1) undoSample0 emptyObj 0 1 2 3 4
    (by decide) (by decide) (by decide) (by decide) (by decide) (by decide)

/-- Witness for redo_invalidation at concrete operations. -/
theorem redo_invalidation_witness :
    recordRedo (addOperation (recordUndo (addOperation
        (DrawingState.initial 0) (sampleOp 0) 1).2 undoSample0 2).2
        (sampleOp 1) 3).2 emptyObj 4
      = (false, (addOperation (recordUndo (addOperation
          (DrawingState.initial 0) (sampleOp 0) 1).2 undoSample0 2).2
          (sampleOp 1) 3).2) :=
  redo_invalidation (sampleOp 0) (sampleOp 1) undoSample0 emptyObj 0 1 2 3 4
    (by decide) (by decide) (by decide) (by decide) (by decide)

/-- Witness for capacity_bound: the fresh log is reachable and within the
bound, and the 501 concrete operations exhibit the eviction behaviour. -/
theorem capacity_bound_witness :
    (DrawingState.initial 0).drawingHistory.length ≤ 500
    ∧ ((addAll (DrawingState.initial 0) sampleOps 0).drawingHistory
        = (sampleOps.map (fun op => enrichOp op 0)).drop 1
      ∧ (addAll (DrawingState.initial 0) sampleOps 0).drawingHistory.length
        = 500) :=
  ⟨capacity_bound.1 (DrawingState.initial 0) (Reachable.init 0),
   capacity_bound.2 sampleOps 0 0
     (by simp [sampleOps]) sampleOps_sound⟩

/-- Witness for logical_miss_no_side_effects at a concrete log, room and
missing id. -/
theorem logical_miss_witness :
    recordUndo sampleState missUndo 2 = (false, sampleState)
    ∧ recordRedo sampleState emptyObj 2 = (false, sampleState)
    ∧ handleUndo sampleRoom wsA "uA" missUndo 5 = (sampleRoom, [])
    ∧ handleRedo sampleRoom wsA "uA" emptyObj 5 = (sampleRoom, []) :=
  ⟨logical_miss_no_side_effects.1 sampleState missUndo 2 (by decide),
   logical_miss_no_side_effects.2.1 sampleState emptyObj 2 (by decide),
   logical_miss_no_side_effects.2.2.1 sampleRoom wsA "uA" missUndo 5 (by decide),
   logical_miss_no_side_effects.2.2.2 sampleRoom wsA "uA" emptyObj 5 (by decide)⟩

theorem restSample_sound :
    ∀ op ∈ sampleOp 0 :: restSample, validateOperation op = true
      ∧ truthy (op.get "operationId") = true := by
  intro op hop
  rcases List.mem_cons.1 hop with h | h
  · rw [h]
    exact ⟨sampleOp_valid 0, sampleOp_truthy 0⟩
  · obtain ⟨k, -, rfl⟩ := List.mem_map.1 h
    exact ⟨sampleOp_valid _, sampleOp_truthy _⟩

theorem restSample_distinct :
    ∀ op ∈ restSample,
      jsEq (op.get "operationId") ((sampleOp 0).get "operationId") = false := by
  intro op hop
  obtain ⟨k, -, rfl⟩ := List.mem_map.1 hop
  rw [sampleOp_get_operationId, sampleOp_get_operationId]
  simp [jsEq]
  omega

/-- Witness for evicted_op_not_undoable: after 501 concrete appends the
first operation is evicted and cannot be undone, and an operation undone
once cannot be undone a second time. -/
theorem evicted_op_not_undoable_witness :
    (recordUndo (addAll (DrawingState.initial 0)
        (sampleOp 0 :: restSample) 1) undoSample0 2
      = (false, addAll (DrawingState.initial 0) (sampleOp 0 :: restSample) 1))
    ∧ (recordUndo (recordUndo (addOperation (addOperation
        (DrawingState.initial 0) (sampleOp 0) 1).2 (sampleOp 1) 2).2
        undoSample0 3).2 undoSample0 4
      = (false, (recordUndo (addOperation (addOperation
          (DrawingState.initial 0) (sampleOp 0) 1).2 (sampleOp 1) 2).2
          undoSample0 3).2)) :=
  ⟨evicted_op_not_undoable.1 (sampleOp 0) restSample undoSample0 0 1 2
     (by simp [restSample]) restSample_sound restSample_distinct (by decide),
   evicted_op_not_undoable.2 (sampleOp 0) (sampleOp 1) undoSample0 0 1 2 3 4
     (by decide) (by decide) (by decide) (by decide) (by decide) (by decide)⟩

/-- Witness for clearall_undo_succeeds at the concrete ClearAll log. -/
theorem clearall_undo_succeeds_witness :
    recordUndo (addOperation (DrawingState.initial 0) clearOpSample 5).2
        undoClearSample 6
      = (true,
        { (addOperation (DrawingState.initial 0) clearOpSample 5).2 with
          drawingHistory := ([] : List JsObject)
          redoStack :=
            (addOperation (DrawingState.initial 0) clearOpSample 5).2.redoStack
              ++ [enrichOp clearOpSample 5]
          operationHistory :=
            (addOperation (DrawingState.initial 0)
              clearOpSample 5).2.operationHistory
              ++ [undoAudit undoClearSample 6] }) :=
  clearall_undo_succeeds (addOperation (DrawingState.initial 0) clearOpSample 5).2
    undoClearSample 6 (enrichOp clearOpSample 5) [] (by decide) (by decide)

/-- Witness for close_deletes_empty_room at a one-room server. -/
theorem close_deletes_empty_room_witness :
    ((closeHandler ⟨[("r1", DrawingRoom.create "r1" 0)]⟩
        ⟨"uA", "A", some "r1"⟩ wsA).1.rooms.find?
        (fun r => r.1 == "r1")) = none
    ∧ (("r1", DrawingRoom.create "r1" 0) ∈
        (cleanupSweep ⟨[("r1", DrawingRoom.create "r1" 0)]⟩ 10).rooms ↔
        (("r1", DrawingRoom.create "r1" 0) ∈
            ([("r1", DrawingRoom.create "r1" 0)] : List (String × DrawingRoom))
          ∧ ¬((DrawingRoom.create "r1" 0).isEmpty = true
              ∧ (DrawingRoom.create "r1" 0).lastActivityAt
                < 10 - 60 * 60 * 1000))) :=
  ⟨close_deletes_empty_room.1 ⟨[("r1", DrawingRoom.create "r1" 0)]⟩
     ⟨"uA", "A", some "r1"⟩ wsA "r1" ("r1", DrawingRoom.create "r1" 0)
     (by decide) (by decide) (by decide),
   close_deletes_empty_room.2 ⟨[("r1", DrawingRoom.create "r1" 0)]⟩ 10 "r1"
     (DrawingRoom.create "r1" 0)⟩

/-- Witness for broadcast_exclusion at a two-member room: the DRAW from A
is never sent back to A, and B, being open and distinct, receives it. -/
theorem broadcast_exclusion_witness :
    (∀ m : Msg, (wsA, m) ∉ (handleDraw sampleRoom wsA "uA" drawDataA 5).2)
    ∧ (∃ m : Msg, (wsB, m) ∈ (handleDraw sampleRoom wsA "uA" drawDataA 5).2)
    ∧ (∃ m : Msg, (wsA, m) ∈ (handleClearCanvas sampleRoom wsA "uA" drawDataA 5).2) :=
  ⟨(broadcast_exclusion sampleRoom wsA sampleInfo "uA" drawDataA 5
      (by decide) (by decide)).1,
   (broadcast_exclusion sampleRoom wsA sampleInfo "uA" drawDataA 5
      (by decide) (by decide)).2.1 wsB sampleInfo2 (by decide) (by decide)
      (by decide),
   (broadcast_exclusion sampleRoom wsA sampleInfo "uA" drawDataA 5
      (by decide) (by decide)).2.2.2.2.2.2 wsA sampleInfo (by decide)
      (by decide)⟩

